import Mathlib

/-!
Verification development for the DART value-up plan checker
(`check_value_up.py`), a single-script polling job that resolves company
names to DART corp codes, fetches filings over a 90-day window, classifies
them by keyword, diffs them against a persisted seen-set, and fans out to
three sinks (CSV ledger, email, chat webhook).

Strings are modelled as `List Char`; Python `str.lower` is modelled
character-wise by `Char.toLower` (they agree on the ASCII and Hangul
characters this program manipulates), `str.strip` by dropping whitespace
on both ends, and the substring operator `in` by an explicit scanner
`containsSub` proved equivalent to `List.IsInfix`.  Dictionaries whose
iteration order matters (the corp-code cache) are modelled as association
lists with Python-dict update semantics; the seen-set is a `Finset`.
Network and filesystem effects are modelled by explicit oracles recording
whether the corresponding call raises.
-/

namespace ValueUp

deriving instance DecidableEq for Except

/-- Character-wise lower-casing, the model of Python `str.lower()`. -/
def lower (s : List Char) : List Char := s.map Char.toLower

/-- Model of Python `str.strip()`: drop whitespace from both ends. -/
def trim (s : List Char) : List Char :=
  ((s.dropWhile Char.isWhitespace).reverse.dropWhile Char.isWhitespace).reverse

/-- Model of Python substring containment `needle in hay`. -/
def containsSub (needle : List Char) : List Char → Bool
  | [] => needle.isEmpty
  | c :: cs => needle.isPrefixOf (c :: cs) || containsSub needle cs

/-- `VALUE_UP_KEYWORDS` from the script's configuration block. -/
def VALUE_UP_KEYWORDS : List (List Char) :=
  ["기업가치제고".toList,
   "기업가치제고계획".toList,
   "밸류업".toList,
   "value up".toList,
   "value-up".toList,
   "기업가치 제고".toList]

/-- A filing record as the script consumes it: a JSON dictionary whose
fields may be absent (`none` models a missing key, matching the script's
use of `.get` with defaults). -/
structure Filing where
  corp_name : Option (List Char)
  stock_code : Option (List Char)
  report_nm : Option (List Char)
  rcept_dt : Option (List Char)
  rcept_no : Option (List Char)
deriving DecidableEq, Repr

/-- `is_value_up_filing`: the title (`report_nm`, defaulting to the empty
string) is lower-cased and tested for each lower-cased keyword with
Python's `in`. -/
def is_value_up_filing (f : Filing) : Bool :=
  VALUE_UP_KEYWORDS.any fun kw => containsSub (lower kw) (lower (f.report_nm.getD []))

/-- Python-dict assignment `m[k] = v` on an insertion-ordered association
list: an existing key keeps its position and gets the new value, a new key
is appended at the end. -/
def upsert : List (List Char × List Char) → List Char → List Char →
    List (List Char × List Char)
  | [], k, v => [(k, v)]
  | (k', v') :: rest, k, v =>
    if k' = k then (k, v) :: rest else (k', v') :: upsert rest k v

/-- The cache-building loop of `get_corp_code`: for each XML record the
stripped `corp_name`, `corp_code` and `stock_code` are read and, when the
code is non-empty, both the lower-cased name and the lower-cased stock
code are mapped to the code. -/
def buildCorpMap (entries : List (List Char × List Char × List Char)) :
    List (List Char × List Char) :=
  entries.foldl
    (fun m e =>
      let name := trim e.1
      let code := trim e.2.1
      let stock := trim e.2.2
      if code ≠ [] then upsert (upsert m (lower name) code) (lower stock) code
      else m)
    []

/-- Python `if q in corp_map: return corp_map[q]` on the modelled dict. -/
def findExact (q : List Char) : List (List Char × List Char) → Option (List Char)
  | [] => none
  | (k, v) :: rest => if k = q then some v else findExact q rest

/-- The fallback loop of `_search_corp_map`: first entry, in insertion
order, whose key contains the query as a substring. -/
def findPartial (q : List Char) : List (List Char × List Char) → Option (List Char)
  | [] => none
  | (k, v) :: rest => if containsSub q k then some v else findPartial q rest

/-- `_search_corp_map`: strip and lower-case the query, try an exact key
lookup, then fall back to the first substring match in insertion order. -/
def _search_corp_map (corp_map : List (List Char × List Char)) (query : List Char) :
    Option (List Char) :=
  let q := lower (trim query)
  match findExact q corp_map with
  | some code => some code
  | none => findPartial q corp_map

/-- The resolution policy in the specification's words, for comparison
with `_search_corp_map`: return the value of the exact lower-cased key
when present, otherwise the value of the first entry (in insertion order)
whose key contains the query as a substring, otherwise not-found.  The
spec does not mention stripping the query. -/
def searchPolicySpec (corp_map : List (List Char × List Char)) (query : List Char) :
    Option (List Char) :=
  let q := lower query
  match corp_map.find? (fun p => p.1 = q) with
  | some p => some p.2
  | none => (corp_map.find? fun p => containsSub q p.1).map Prod.snd

/-- The two-company bulk listing of the specification's rebuild example. -/
def demoEntries : List (List Char × List Char × List Char) :=
  [("Acme Corp".toList, "00012345".toList, "012345".toList),
   ("Beta Inc".toList, "00098765".toList, "098765".toList)]

/-- The identifier cache rebuilt from `demoEntries`. -/
def demoMap : List (List Char × List Char) := buildCorpMap demoEntries

/-- `"000"`: the DART success status. -/
def STATUS_OK : List Char := "000".toList

/-- `"013"`: the DART "no results" status, treated as a normal empty
result. -/
def STATUS_NO_RESULTS : List Char := "013".toList

/-- The placeholder default of `DART_API_KEY`. -/
def PLACEHOLDER_KEY : List Char := "YOUR_DART_API_KEY_HERE".toList

/-- The DART viewer URL prose that `filing_url` prepends. -/
def DART_VIEWER : List Char := "https://dart.fss.or.kr/dsaf001/main.do?rcpNo=".toList

/-- `filing_url`: viewer URL built from `filing.get("rcept_no", "")`. -/
def filing_url (f : Filing) : List Char := DART_VIEWER ++ f.rcept_no.getD []

/-- The decoded JSON body of one `list.json` query: the `status` field and
the `list` field (defaulting to `[]`, as in `data.get("list", [])`). -/
structure DartListData where
  status : List Char
  filings : List Filing
deriving DecidableEq, Repr

/-- The two values of the `pblntf_ty` query parameter: regular (`A`) and
voluntary (`B`) disclosures. -/
inductive PblntfTy where
  | A
  | B
deriving DecidableEq, Repr

/-- Outcome of one category query inside `search_filings`; `respond`
returning `.error` models any exception inside the `try` (transport
failure, `raise_for_status`, JSON decoding), which the `except` catches
and logs. -/
inductive CatOutcome where
  | success (fs : List Filing)
  | noResults
  | statusWarning
  | exceptionLogged
deriving DecidableEq, Repr

/-- One iteration of the category loop of `search_filings`. -/
def fetchCategory (respond : PblntfTy → Except Unit DartListData) (ty : PblntfTy) :
    CatOutcome :=
  match respond ty with
  | .error _ => .exceptionLogged
  | .ok d =>
    if d.status = STATUS_OK then .success d.filings
    else if d.status = STATUS_NO_RESULTS then .noResults
    else .statusWarning

/-- Filings a category outcome contributes to `all_filings`. -/
def catFilings : CatOutcome → List Filing
  | .success fs => fs
  | _ => []

/-- `search_filings`: query category A then category B, appending whatever
each contributed; every failure mode leaves the other category's
contribution intact. -/
def search_filings (respond : PblntfTy → Except Unit DartListData) : List Filing :=
  catFilings (fetchCategory respond .A) ++ catFilings (fetchCategory respond .B)

/-- One row of the CSV ledger, with the columns `save_to_csv` writes. -/
structure Row where
  company : List Char
  stock_code : List Char
  report_title : List Char
  filed_date : List Char
  receipt_no : List Char
  dart_url : List Char
  checked_on : List Char
deriving DecidableEq, Repr

/-- The row `save_to_csv` builds from one filing (`today` is the
`checked_on` stamp). -/
def toRow (today : List Char) (f : Filing) : Row :=
  { company := f.corp_name.getD []
    stock_code := f.stock_code.getD []
    report_title := f.report_nm.getD []
    filed_date := f.rcept_dt.getD []
    receipt_no := f.rcept_no.getD []
    dart_url := filing_url f
    checked_on := today }

/-- Recursive core of pandas `drop_duplicates(subset=["receipt_no"])`
with the default `keep="first"`. -/
def dedupByReceipt (kept : List (List Char)) : List Row → List Row
  | [] => []
  | r :: rest =>
    if r.receipt_no ∈ kept then dedupByReceipt kept rest
    else r :: dedupByReceipt (r.receipt_no :: kept) rest

/-- `df_all.drop_duplicates(subset=["receipt_no"])`. -/
def dropDuplicatesByReceipt (rows : List Row) : List Row := dedupByReceipt [] rows

/-- `save_to_csv` as a pure function from the prior ledger (`none` models
an absent file) to the rewritten ledger: build one row per new filing,
and when the file exists concatenate then deduplicate by receipt number;
when it does not, write the new rows as they are. -/
def save_to_csv (today : List Char) (ledger : Option (List Row))
    (new_filings : List Filing) : List Row :=
  let df_new := new_filings.map (toRow today)
  match ledger with
  | some df_existing => dropDuplicatesByReceipt (df_existing ++ df_new)
  | none => df_new

/-- The receipt key the run loop uses: `filing.get("rcept_no", "")`. -/
def rcept (f : Filing) : List Char := f.rcept_no.getD []

/-- The inner filing loop of `run()`: skip a filing whose receipt key is
already seen; otherwise add the key to the seen set and, when the title
matches, also append the filing to the new-filing list. -/
def processFilings (seen : Finset (List Char)) :
    List Filing → List Filing × Finset (List Char)
  | [] => ([], seen)
  | f :: rest =>
    if rcept f ∈ seen then processFilings seen rest
    else
      let next := processFilings (insert (rcept f) seen) rest
      if is_value_up_filing f then (f :: next.1, next.2) else next

/-- The remote world one run observes: the configured company list, what
`get_corp_code` resolves each company to (`none` = not found), and the
merged list `search_filings` returns for a corp code in the run's fixed
90-day window. -/
structure World where
  companies : List (List Char)
  corp_code : List Char → Option (List Char)
  filings : List Char → List Filing

/-- The company loop of `run()`: a company without a corp code is skipped
with a warning; otherwise its filings are processed, threading the seen
set and appending new matches in order. -/
def companyLoop (w : World) (seen : Finset (List Char)) :
    List (List Char) → List Filing × Finset (List Char)
  | [] => ([], seen)
  | c :: rest =>
    match w.corp_code c with
    | none => companyLoop w seen rest
    | some code =>
      let r1 := processFilings seen (w.filings code)
      let r2 := companyLoop w r1.2 rest
      (r1.1 ++ r2.1, r2.2)

/-- All filings a run encounters, in processing order. -/
def gatherFilings (w : World) : List Filing :=
  (w.companies.filterMap w.corp_code).flatMap w.filings

/-- The claim's characterization of the new-match list: the fetched
filings whose receipt key is not in the loaded seen set and whose title
matches a keyword. -/
def newMatchesSpec (seen0 : Finset (List Char)) (fs : List Filing) : List Filing :=
  fs.filter fun f => !(decide (rcept f ∈ seen0)) && is_value_up_filing f

/-- The configuration surface of the script. -/
structure Config where
  apiKey : List Char
  emailSender : List Char
  emailPassword : List Char
  emailTo : List Char
  slackWebhook : List Char

/-- Python truthiness of `EMAIL_SENDER and EMAIL_PASSWORD and EMAIL_TO`. -/
def emailConfigured (cfg : Config) : Bool :=
  !cfg.emailSender.isEmpty && !cfg.emailPassword.isEmpty && !cfg.emailTo.isEmpty

/-- Python truthiness of `SLACK_WEBHOOK`. -/
def slackConfigured (cfg : Config) : Bool := !cfg.slackWebhook.isEmpty

/-- Which of the effectful sink operations would raise if attempted:
reading/rewriting the CSV file, the SMTP session, the webhook POST. -/
structure SinkOracle where
  csvRaises : Bool
  emailRaises : Bool
  slackRaises : Bool
deriving DecidableEq, Repr

/-- Whether a filing carries every field the email digest loop and the
Slack block loop index directly (`f['corp_name']`, `f['report_nm']`,
`f['rcept_dt']`); a missing one raises `KeyError` there. -/
def hasDisplayFields (f : Filing) : Bool :=
  f.corp_name.isSome && f.report_nm.isSome && f.rcept_dt.isSome

/-- Observables of a `send_email` call that returned: whether the
configuration check passed (so the SMTP network call was attempted) and
whether the send succeeded.  Only the SMTP session sits in `try/except`;
the digest-building loop runs before it. -/
structure EmailOutcome where
  networkCall : Bool
  sent : Bool
deriving DecidableEq, Repr

/-- `send_email`: return as a no-op when the email configuration is
incomplete; otherwise build the HTML digest — indexing each filing's
`corp_name`, `report_nm` and `rcept_dt`, so a missing field raises an
uncaught `KeyError` (`.error`) — then attempt the SMTP send inside
`try/except`, catching and logging any network failure. -/
def send_email (cfg : Config) (o : SinkOracle) (new_filings : List Filing) :
    Except Unit EmailOutcome :=
  if !(emailConfigured cfg) then .ok { networkCall := false, sent := false }
  else if !(new_filings.all hasDisplayFields) then .error ()
  else if o.emailRaises then .ok { networkCall := true, sent := false }
  else .ok { networkCall := true, sent := true }

/-- Observables of a `send_slack` call that returned: whether the webhook
POST was attempted and whether it succeeded.  Only the POST sits in
`try/except`; the block-building loop runs before it. -/
structure SlackOutcome where
  webhookPost : Bool
  posted : Bool
deriving DecidableEq, Repr

/-- `send_slack`: return as a no-op when no webhook is configured;
otherwise build the block message — indexing each filing's `corp_name`,
`report_nm` and `rcept_dt`, so a missing field raises an uncaught
`KeyError` (`.error`) — then attempt the POST inside `try/except`,
catching and logging any network failure. -/
def send_slack (cfg : Config) (o : SinkOracle) (new_filings : List Filing) :
    Except Unit SlackOutcome :=
  if !(slackConfigured cfg) then .ok { webhookPost := false, posted := false }
  else if !(new_filings.all hasDisplayFields) then .error ()
  else if o.slackRaises then .ok { webhookPost := true, posted := false }
  else .ok { webhookPost := true, posted := true }

/-- `save_to_csv` with its filesystem/pandas effects: the body contains no
`try/except`, so when the oracle says the CSV operation raises, the
exception propagates to the caller. -/
def save_to_csv_eff (o : SinkOracle) (today : List Char) (ledger : Option (List Row))
    (new_filings : List Filing) : Except Unit (List Row) :=
  if o.csvRaises then .error () else .ok (save_to_csv today ledger new_filings)

/-- Observables of one `run()` invocation.  A sink field of `none` means
that sink function was never entered; an entered sink records the payload
it received and either its outcome or the uncaught exception
(`Except.error`) it raised. -/
structure RunResult where
  abortedOnKey : Bool
  companiesLoaded : Bool
  seenLoaded : Bool
  fetchedCodes : List (List Char)
  newFilings : List Filing
  seenSaved : Option (Finset (List Char))
  ledger : Option (List Row)
  csvSink : Option (List Filing × Bool)
  emailSink : Option (List Filing × Except Unit EmailOutcome)
  slackSink : Option (List Filing × Except Unit SlackOutcome)
  completed : Bool

/-- `run()`: abort on the placeholder API key before loading anything;
otherwise load the company list and seen set, loop over companies
resolving, fetching and classifying, persist the seen set once, and when
new filings were collected invoke the sinks in order CSV, email, Slack.
Nothing in `run` catches: an uncaught CSV exception ends the run before
the email and Slack sinks, and an uncaught exception escaping `send_email`
ends it before `send_slack`. -/
def run (cfg : Config) (o : SinkOracle) (w : World) (today : List Char)
    (seen0 : Finset (List Char)) (ledger0 : Option (List Row)) : RunResult :=
  if cfg.apiKey = PLACEHOLDER_KEY then
    { abortedOnKey := true, companiesLoaded := false, seenLoaded := false,
      fetchedCodes := [], newFilings := [], seenSaved := none, ledger := ledger0,
      csvSink := none, emailSink := none, slackSink := none, completed := false }
  else
    let r := companyLoop w seen0 w.companies
    let base : RunResult :=
      { abortedOnKey := false, companiesLoaded := true, seenLoaded := true,
        fetchedCodes := w.companies.filterMap w.corp_code,
        newFilings := r.1, seenSaved := some r.2, ledger := ledger0,
        csvSink := none, emailSink := none, slackSink := none, completed := true }
    if r.1.isEmpty then base
    else
      match save_to_csv_eff o today ledger0 r.1 with
      | .error _ => { base with csvSink := some (r.1, false), completed := false }
      | .ok rows =>
        match send_email cfg o r.1 with
        | .error e =>
          { base with
            ledger := some rows
            csvSink := some (r.1, true)
            emailSink := some (r.1, .error e)
            completed := false }
        | .ok eo =>
          match send_slack cfg o r.1 with
          | .error e =>
            { base with
              ledger := some rows
              csvSink := some (r.1, true)
              emailSink := some (r.1, .ok eo)
              slackSink := some (r.1, .error e)
              completed := false }
          | .ok so =>
            { base with
              ledger := some rows
              csvSink := some (r.1, true)
              emailSink := some (r.1, .ok eo)
              slackSink := some (r.1, .ok so) }

/-- A sequence of runs sharing the seen-set file and the CSV ledger: each
run starts from whatever state the previous run persisted.  Per-run
inputs are the sink oracle, the observed world and the date stamp. -/
def runSeq (cfg : Config) (seen : Finset (List Char)) (ledger : Option (List Row)) :
    List (SinkOracle × World × List Char) → List RunResult
  | [] => []
  | (o, w, today) :: rest =>
    let r := run cfg o w today seen ledger
    r :: runSeq cfg (r.seenSaved.getD seen) r.ledger rest

/-- A filing whose title matches the keyword "value up". -/
def matchFiling : Filing :=
  { corp_name := some "Acme".toList, stock_code := some "012345".toList,
    report_nm := some "Corporate Value Up Plan".toList,
    rcept_dt := some "20251001".toList, rcept_no := some "A3".toList }

/-- A filing (receipt "A1") whose title matches no keyword. -/
def plainFilingA1 : Filing :=
  { corp_name := some "Acme".toList, stock_code := some "012345".toList,
    report_nm := some "Annual Report".toList,
    rcept_dt := some "20250901".toList, rcept_no := some "A1".toList }

/-- A filing (receipt "A2") whose title matches no keyword. -/
def plainFilingA2 : Filing :=
  { corp_name := some "Acme".toList, stock_code := some "012345".toList,
    report_nm := some "Quarterly Report".toList,
    rcept_dt := some "20250915".toList, rcept_no := some "A2".toList }

/-- A world with one resolvable company whose fetch returns `fs`. -/
def oneCompanyWorld (fs : List Filing) : World :=
  { companies := ["Acme".toList]
    corp_code := fun _ => some "00012345".toList
    filings := fun _ => fs }

/-- A configuration with a real API key and all sinks configured. -/
def demoConfig : Config :=
  { apiKey := "real-key".toList, emailSender := "alerts@acme".toList,
    emailPassword := "pw".toList, emailTo := "ops@acme".toList,
    slackWebhook := "https://hooks.example".toList }

/-- The oracle under which no sink operation raises. -/
def noFailOracle : SinkOracle :=
  { csvRaises := false, emailRaises := false, slackRaises := false }

/-- The oracle under which only the CSV operation raises. -/
def csvFailOracle : SinkOracle :=
  { csvRaises := true, emailRaises := false, slackRaises := false }

/-- The receipt-number column of a list of ledger rows. -/
def rowKeys (rows : List Row) : List (List Char) := rows.map Row.receipt_no

/-- The spec's end-to-end example: one company with filings A1, A2, A3,
of which only A3 matches. -/
def exampleWorldA : World := oneCompanyWorld [plainFilingA1, plainFilingA2, matchFiling]

/-- The seen set of the spec's end-to-end example. -/
def seenA1 : Finset (List Char) := {"A1".toList}

/-- The configuration with the API key left at its placeholder. -/
def placeholderConfig : Config := { demoConfig with apiKey := PLACEHOLDER_KEY }

/-- The configuration whose email password is empty. -/
def emailIncompleteConfig : Config := { demoConfig with emailPassword := [] }

/-- A matching filing without a receipt number. -/
def noReceiptFiling1 : Filing :=
  { corp_name := some "Acme".toList, stock_code := none,
    report_nm := some "Value-Up Plan Part 1".toList,
    rcept_dt := some "20251001".toList, rcept_no := none }

/-- A second matching filing without a receipt number. -/
def noReceiptFiling2 : Filing :=
  { corp_name := some "Acme".toList, stock_code := none,
    report_nm := some "밸류업 Announcement".toList,
    rcept_dt := some "20251002".toList, rcept_no := none }

/-- Two runs over the same world: the first run's CSV write raises, the
second run's does not. -/
def twoRunInputs : List (SinkOracle × World × List Char) :=
  [(csvFailOracle, oneCompanyWorld [matchFiling], "2025-10-12".toList),
   (noFailOracle, oneCompanyWorld [matchFiling], "2025-10-13".toList)]

/-- The oracle under which the SMTP session and the webhook POST raise
but the CSV operation does not. -/
def emailSlackFailOracle : SinkOracle :=
  { csvRaises := false, emailRaises := true, slackRaises := true }

/-- A responder whose category-A query reports "no results" (status 013)
and whose category-B query succeeds with one matching filing. -/
def respond013 : PblntfTy → Except Unit DartListData
  | .A => .ok { status := STATUS_NO_RESULTS, filings := [] }
  | .B => .ok { status := STATUS_OK, filings := [matchFiling] }

/-- A matching filing whose record lacks the `corp_name` key that the
email digest and Slack block templates index directly. -/
def noCorpNameFiling : Filing :=
  { corp_name := none, stock_code := some "012345".toList,
    report_nm := some "Corporate Value Up Plan".toList,
    rcept_dt := some "20251001".toList, rcept_no := some "B1".toList }

theorem containsSub_iff_infix (needle hay : List Char) :
    containsSub needle hay = true ↔ needle <:+: hay := by
  induction hay with
  | nil =>
    simp [containsSub, List.isEmpty_iff, List.infix_nil]
  | cons c cs ih =>
    simp only [containsSub, Bool.or_eq_true, List.isPrefixOf_iff_prefix, ih,
      List.infix_cons_iff]

/-- C4: `is_value_up_filing` returns true iff the filing's report title
contains at least one of the fixed keyword variants as a case-insensitive
substring (both sides lower-cased, exact substring containment at any
position, no stemming or fuzzy matching). -/
theorem is_value_up_filing_iff_keyword_substring (f : Filing) :
    is_value_up_filing f = true ↔
      ∃ kw ∈ VALUE_UP_KEYWORDS, lower kw <:+: lower (f.report_nm.getD []) := by
  simp only [is_value_up_filing, List.any_eq_true, containsSub_iff_infix]

/-- Witness for C4: a concrete title containing the keyword "Value-Up"
case-insensitively is classified as a match. -/
theorem is_value_up_filing_iff_keyword_substring_witness :
    is_value_up_filing
      { corp_name := some "Acme".toList, stock_code := none,
        report_nm := some "Corporate Value-Up Plan".toList,
        rcept_dt := none, rcept_no := some "X1".toList } = true ∧
    ∃ kw ∈ VALUE_UP_KEYWORDS,
      lower kw <:+: lower ("Corporate Value-Up Plan".toList) := by
  have h := is_value_up_filing_iff_keyword_substring
    { corp_name := some "Acme".toList, stock_code := none,
      report_nm := some "Corporate Value-Up Plan".toList,
      rcept_dt := none, rcept_no := some "X1".toList }
  refine ⟨?_, ?_⟩
  · exact h.mpr (by decide)
  · exact h.mp (by decide)

theorem findExact_eq_find? (q : List Char) (m : List (List Char × List Char)) :
    findExact q m = (m.find? fun p => p.1 = q).map Prod.snd := by
  induction m with
  | nil => rfl
  | cons p rest ih =>
    by_cases h : p.1 = q
    · simp [findExact, h, List.find?_cons]
    · simp [findExact, h, List.find?_cons, ih]

theorem findPartial_eq_find? (q : List Char) (m : List (List Char × List Char)) :
    findPartial q m = (m.find? fun p => containsSub q p.1).map Prod.snd := by
  induction m with
  | nil => rfl
  | cons p rest ih =>
    by_cases h : containsSub q p.1
    · simp [findPartial, h, List.find?_cons]
    · simp [findPartial, h, List.find?_cons, ih]

/-- C6 counterexample: on the cache rebuilt from the spec's example
listing, the query with a trailing space resolves through the code's
`strip` to Acme's code, while the claimed policy (exact lower-cased key,
else first substring hit, else not-found — no stripping) yields
not-found. -/
theorem search_policy_counterexample :
    _search_corp_map demoMap ("acme corp ".toList) = some ("00012345".toList) ∧
    searchPolicySpec demoMap ("acme corp ".toList) = none := by
  constructor
  · decide
  · decide

/-- C6 (amended): resolution first strips surrounding whitespace from the
query; on the stripped query it returns the value of the exact lower-cased
key when present, otherwise the value of the first map entry in insertion
order whose key contains the query as a substring, otherwise not-found.
On the spec's example cache, "acme corp" resolves to "00012345", "098765"
to "00098765", and "nonexistent" to not-found. -/
theorem search_corp_map_policy (m : List (List Char × List Char)) (q : List Char) :
    _search_corp_map m q = searchPolicySpec m (trim q) ∧
    _search_corp_map demoMap ("acme corp".toList) = some ("00012345".toList) ∧
    _search_corp_map demoMap ("098765".toList) = some ("00098765".toList) ∧
    _search_corp_map demoMap ("nonexistent".toList) = none := by
  refine ⟨?_, by decide, by decide, by decide⟩
  unfold _search_corp_map searchPolicySpec
  simp only [findExact_eq_find?, findPartial_eq_find?]
  cases m.find? fun p => p.1 = lower (trim q) <;> simp

theorem processFilings_seen (fs : List Filing) (seen : Finset (List Char)) :
    (processFilings seen fs).2 = seen ∪ (fs.map rcept).toFinset := by
  induction fs generalizing seen with
  | nil => simp [processFilings]
  | cons f rest ih =>
    by_cases h : rcept f ∈ seen
    · simp only [processFilings, if_pos h, ih, List.map_cons, List.toFinset_cons,
        Finset.union_insert]
      rw [Finset.insert_eq_self.mpr (Finset.mem_union_left _ h)]
    · by_cases hm : is_value_up_filing f
      · simp [processFilings, h, hm, ih, Finset.insert_union, Finset.union_insert]
      · simp [processFilings, h, hm, ih, Finset.insert_union, Finset.union_insert]

theorem processFilings_new_mem :
    ∀ (fs : List Filing) (seen : Finset (List Char)) (f : Filing),
      f ∈ (processFilings seen fs).1 → f ∈ fs ∧ rcept f ∉ seen := by
  intro fs
  induction fs with
  | nil => intro seen f hf; simp [processFilings] at hf
  | cons g rest ih =>
    intro seen f hf
    by_cases h : rcept g ∈ seen
    · simp only [processFilings, if_pos h] at hf
      obtain ⟨h1, h2⟩ := ih seen f hf
      exact ⟨List.mem_cons_of_mem _ h1, h2⟩
    · by_cases hm : is_value_up_filing g
      · simp only [processFilings, if_neg h, if_pos hm] at hf
        rcases List.mem_cons.mp hf with rfl | hf'
        · exact ⟨List.mem_cons_self _ _, h⟩
        · obtain ⟨h1, h2⟩ := ih _ f hf'
          exact ⟨List.mem_cons_of_mem _ h1,
            fun hc => h2 (Finset.mem_insert_of_mem hc)⟩
      · simp only [processFilings, if_neg h, if_neg hm] at hf
        obtain ⟨h1, h2⟩ := ih _ f hf
        exact ⟨List.mem_cons_of_mem _ h1,
          fun hc => h2 (Finset.mem_insert_of_mem hc)⟩

theorem processFilings_new_eq_filter :
    ∀ (fs : List Filing) (seen : Finset (List Char)), (fs.map rcept).Nodup →
      (processFilings seen fs).1 = newMatchesSpec seen fs := by
  intro fs
  induction fs with
  | nil => intro seen _; rfl
  | cons f rest ih =>
    intro seen hnd
    rw [List.map_cons, List.nodup_cons] at hnd
    obtain ⟨hf, hnd'⟩ := hnd
    by_cases h : rcept f ∈ seen
    · simp only [processFilings, if_pos h, ih _ hnd']
      unfold newMatchesSpec
      rw [List.filter_cons]
      simp [h]
    · have hcong : newMatchesSpec (insert (rcept f) seen) rest = newMatchesSpec seen rest := by
        unfold newMatchesSpec
        apply List.filter_congr
        intro g hg
        have hne : rcept g ≠ rcept f :=
          fun hc => hf (hc ▸ List.mem_map_of_mem rcept hg)
        simp [Finset.mem_insert, hne]
      by_cases hm : is_value_up_filing f
      · simp only [processFilings, if_neg h, if_pos hm]
        unfold newMatchesSpec
        rw [List.filter_cons]
        simp only [h, hm, decide_eq_true_eq, Bool.true_and, if_pos,
          Bool.not_eq_true', decide_eq_false_iff_not]
        have := ih (insert (rcept f) seen) hnd'
        rw [show ((processFilings (insert (rcept f) seen) rest).1 : List Filing) =
            newMatchesSpec seen rest from this.trans hcong]
        simp [newMatchesSpec, h]
      · simp only [processFilings, if_neg h, if_neg hm]
        unfold newMatchesSpec
        rw [List.filter_cons]
        simp only [hm, Bool.and_false, if_neg]
        have := ih (insert (rcept f) seen) hnd'
        simp only [this.trans hcong, newMatchesSpec]
        simp [hm]

theorem processFilings_append :
    ∀ (a b : List Filing) (seen : Finset (List Char)),
      (processFilings seen (a ++ b)).1 =
        (processFilings seen a).1 ++ (processFilings (processFilings seen a).2 b).1 ∧
      (processFilings seen (a ++ b)).2 = (processFilings (processFilings seen a).2 b).2 := by
  intro a
  induction a with
  | nil => intro b seen; simp [processFilings]
  | cons f rest ih =>
    intro b seen
    by_cases h : rcept f ∈ seen
    · simp only [List.cons_append, processFilings, if_pos h]
      exact ih b seen
    · by_cases hm : is_value_up_filing f
      · simp only [List.cons_append, processFilings, if_neg h, if_pos hm]
        obtain ⟨h1, h2⟩ := ih b (insert (rcept f) seen)
        exact ⟨by simp [h1], by simp [h2]⟩
      · simp only [List.cons_append, processFilings, if_neg h, if_neg hm]
        exact ih b (insert (rcept f) seen)

theorem companyLoop_eq (w : World) :
    ∀ (cs : List (List Char)) (seen : Finset (List Char)),
      companyLoop w seen cs =
        processFilings seen ((cs.filterMap w.corp_code).flatMap w.filings) := by
  intro cs
  induction cs with
  | nil => intro seen; rfl
  | cons c rest ih =>
    intro seen
    cases hc : w.corp_code c with
    | none => simp [companyLoop, hc, ih, List.filterMap_cons]
    | some code =>
      simp only [companyLoop, hc, List.filterMap_cons, List.flatMap_cons]
      obtain ⟨h1, h2⟩ :=
        processFilings_append (w.filings code)
          ((rest.filterMap w.corp_code).flatMap w.filings) seen
      rw [Prod.ext_iff]
      exact ⟨by rw [h1, ih], by rw [h2, ih]⟩

theorem run_core (cfg : Config) (o : SinkOracle) (w : World) (today : List Char)
    (seen0 : Finset (List Char)) (ledger0 : Option (List Row))
    (hkey : cfg.apiKey ≠ PLACEHOLDER_KEY) :
    (run cfg o w today seen0 ledger0).newFilings = (companyLoop w seen0 w.companies).1 ∧
    (run cfg o w today seen0 ledger0).seenSaved =
      some (companyLoop w seen0 w.companies).2 ∧
    (run cfg o w today seen0 ledger0).abortedOnKey = false := by
  simp only [run, if_neg hkey]
  split
  · exact ⟨rfl, rfl, rfl⟩
  · split
    · exact ⟨rfl, rfl, rfl⟩
    · split
      · exact ⟨rfl, rfl, rfl⟩
      · split
        · exact ⟨rfl, rfl, rfl⟩
        · exact ⟨rfl, rfl, rfl⟩

theorem send_email_not_configured (cfg : Config) (o : SinkOracle) (fs : List Filing)
    (hc : emailConfigured cfg = false) :
    send_email cfg o fs = .ok { networkCall := false, sent := false } := by
  simp [send_email, hc]

theorem send_email_of_display (cfg : Config) (o : SinkOracle) (fs : List Filing)
    (hd : fs.all hasDisplayFields = true) :
    send_email cfg o fs =
      .ok { networkCall := emailConfigured cfg,
            sent := emailConfigured cfg && !o.emailRaises } := by
  by_cases hc : emailConfigured cfg
  · by_cases hr : o.emailRaises <;> simp [send_email, hc, hd, hr]
  · simp [send_email, hc, Bool.eq_false_iff.mpr hc]

theorem send_slack_of_display (cfg : Config) (o : SinkOracle) (fs : List Filing)
    (hd : fs.all hasDisplayFields = true) :
    send_slack cfg o fs =
      .ok { webhookPost := slackConfigured cfg,
            posted := slackConfigured cfg && !o.slackRaises } := by
  by_cases hc : slackConfigured cfg
  · by_cases hr : o.slackRaises <;> simp [send_slack, hc, hd, hr]
  · simp [send_slack, hc, Bool.eq_false_iff.mpr hc]

theorem run_sinks_csv_fail (cfg : Config) (o : SinkOracle) (w : World) (today : List Char)
    (seen0 : Finset (List Char)) (ledger0 : Option (List Row))
    (hkey : cfg.apiKey ≠ PLACEHOLDER_KEY)
    (hnew : (companyLoop w seen0 w.companies).1 ≠ [])
    (hcsv : o.csvRaises = true) :
    (run cfg o w today seen0 ledger0).csvSink =
      some ((companyLoop w seen0 w.companies).1, false) ∧
    (run cfg o w today seen0 ledger0).emailSink = none ∧
    (run cfg o w today seen0 ledger0).slackSink = none ∧
    (run cfg o w today seen0 ledger0).ledger = ledger0 ∧
    (run cfg o w today seen0 ledger0).completed = false := by
  have h0 : ¬((companyLoop w seen0 w.companies).1.isEmpty = true) := by
    simpa [List.isEmpty_iff] using hnew
  simp only [run, if_neg hkey, if_neg h0, save_to_csv_eff, hcsv, if_true]
  exact ⟨trivial, trivial, trivial, trivial, trivial⟩

theorem run_email_crash (cfg : Config) (o : SinkOracle) (w : World) (today : List Char)
    (seen0 : Finset (List Char)) (ledger0 : Option (List Row))
    (hkey : cfg.apiKey ≠ PLACEHOLDER_KEY)
    (hnew : (companyLoop w seen0 w.companies).1 ≠ [])
    (hcsv : o.csvRaises = false)
    (he : send_email cfg o (companyLoop w seen0 w.companies).1 = .error ()) :
    (run cfg o w today seen0 ledger0).csvSink =
      some ((companyLoop w seen0 w.companies).1, true) ∧
    (run cfg o w today seen0 ledger0).emailSink =
      some ((companyLoop w seen0 w.companies).1, .error ()) ∧
    (run cfg o w today seen0 ledger0).slackSink = none ∧
    (run cfg o w today seen0 ledger0).completed = false := by
  have h0 : ¬((companyLoop w seen0 w.companies).1.isEmpty = true) := by
    simpa [List.isEmpty_iff] using hnew
  simp only [run, if_neg hkey, if_neg h0, save_to_csv_eff, hcsv, Bool.false_eq_true,
    if_false, he]
  exact ⟨trivial, trivial, trivial, trivial⟩

theorem run_slack_crash (cfg : Config) (o : SinkOracle) (w : World) (today : List Char)
    (seen0 : Finset (List Char)) (ledger0 : Option (List Row)) (eo : EmailOutcome)
    (hkey : cfg.apiKey ≠ PLACEHOLDER_KEY)
    (hnew : (companyLoop w seen0 w.companies).1 ≠ [])
    (hcsv : o.csvRaises = false)
    (he : send_email cfg o (companyLoop w seen0 w.companies).1 = .ok eo)
    (hs : send_slack cfg o (companyLoop w seen0 w.companies).1 = .error ()) :
    (run cfg o w today seen0 ledger0).csvSink =
      some ((companyLoop w seen0 w.companies).1, true) ∧
    (run cfg o w today seen0 ledger0).emailSink =
      some ((companyLoop w seen0 w.companies).1, .ok eo) ∧
    (run cfg o w today seen0 ledger0).slackSink =
      some ((companyLoop w seen0 w.companies).1, .error ()) ∧
    (run cfg o w today seen0 ledger0).completed = false := by
  have h0 : ¬((companyLoop w seen0 w.companies).1.isEmpty = true) := by
    simpa [List.isEmpty_iff] using hnew
  simp only [run, if_neg hkey, if_neg h0, save_to_csv_eff, hcsv, Bool.false_eq_true,
    if_false, he, hs]
  exact ⟨trivial, trivial, trivial, trivial⟩

theorem run_sinks_ok (cfg : Config) (o : SinkOracle) (w : World) (today : List Char)
    (seen0 : Finset (List Char)) (ledger0 : Option (List Row))
    (eo : EmailOutcome) (so : SlackOutcome)
    (hkey : cfg.apiKey ≠ PLACEHOLDER_KEY)
    (hnew : (companyLoop w seen0 w.companies).1 ≠ [])
    (hcsv : o.csvRaises = false)
    (he : send_email cfg o (companyLoop w seen0 w.companies).1 = .ok eo)
    (hs : send_slack cfg o (companyLoop w seen0 w.companies).1 = .ok so) :
    (run cfg o w today seen0 ledger0).csvSink =
      some ((companyLoop w seen0 w.companies).1, true) ∧
    (run cfg o w today seen0 ledger0).ledger =
      some (save_to_csv today ledger0 (companyLoop w seen0 w.companies).1) ∧
    (run cfg o w today seen0 ledger0).emailSink =
      some ((companyLoop w seen0 w.companies).1, .ok eo) ∧
    (run cfg o w today seen0 ledger0).slackSink =
      some ((companyLoop w seen0 w.companies).1, .ok so) ∧
    (run cfg o w today seen0 ledger0).completed = true := by
  have h0 : ¬((companyLoop w seen0 w.companies).1.isEmpty = true) := by
    simpa [List.isEmpty_iff] using hnew
  simp only [run, if_neg hkey, if_neg h0, save_to_csv_eff, hcsv, Bool.false_eq_true,
    if_false, he, hs]
  exact ⟨trivial, trivial, trivial, trivial, trivial⟩

/-- C1 counterexample: when the fetcher returns the same matching filing
twice (as happens when two configured company references resolve to the
same corp code), the run reports it once, while the claim's
characterization — every fetched filing whose receipt identifier is not
in the loaded seen set and whose title matches — lists it twice. -/
theorem run_new_matches_counterexample :
    (run demoConfig noFailOracle (oneCompanyWorld [matchFiling, matchFiling])
        ("2025-10-12".toList) ∅ none).newFilings = [matchFiling] ∧
    newMatchesSpec ∅ (gatherFilings (oneCompanyWorld [matchFiling, matchFiling])) =
      [matchFiling, matchFiling] := by
  constructor
  · decide
  · decide

/-- C1 (amended): for every run with a real API key, the persisted seen
set equals the loaded set unioned with the receipt keys of every filing
encountered, matching or not; and provided the encountered receipt
identifiers are pairwise distinct, the new-match list is exactly the
filings whose identifier is not in the loaded set and whose title matches
a keyword.  Without distinctness a repeated identifier is reported only
at its first occurrence. -/
theorem run_seen_union_new_matches (cfg : Config) (o : SinkOracle) (w : World)
    (today : List Char) (seen0 : Finset (List Char)) (ledger0 : Option (List Row))
    (hkey : cfg.apiKey ≠ PLACEHOLDER_KEY) :
    (run cfg o w today seen0 ledger0).seenSaved =
      some (seen0 ∪ ((gatherFilings w).map rcept).toFinset) ∧
    (((gatherFilings w).map rcept).Nodup →
      (run cfg o w today seen0 ledger0).newFilings =
        newMatchesSpec seen0 (gatherFilings w)) := by
  obtain ⟨hn, hs, _⟩ := run_core cfg o w today seen0 ledger0 hkey
  constructor
  · rw [hs, companyLoop_eq]
    rw [show (w.companies.filterMap w.corp_code).flatMap w.filings = gatherFilings w
      from rfl]
    rw [processFilings_seen]
  · intro hnd
    rw [hn, companyLoop_eq]
    rw [show (w.companies.filterMap w.corp_code).flatMap w.filings = gatherFilings w
      from rfl]
    exact processFilings_new_eq_filter _ _ hnd

/-- Witness for C1: the spec's example — seen set {"A1"}, fetched receipt
identifiers A1, A2, A3 with only A3 matching — yields new-matches [A3]
and persisted set {"A1","A2","A3"}. -/
theorem run_seen_union_new_matches_witness :
    (run demoConfig noFailOracle exampleWorldA ("2025-10-12".toList) seenA1 none).seenSaved =
      some (seenA1 ∪ ((gatherFilings exampleWorldA).map rcept).toFinset) ∧
    (run demoConfig noFailOracle exampleWorldA ("2025-10-12".toList) seenA1 none).newFilings =
      newMatchesSpec seenA1 (gatherFilings exampleWorldA) ∧
    (run demoConfig noFailOracle exampleWorldA ("2025-10-12".toList) seenA1 none).newFilings =
      [matchFiling] ∧
    (run demoConfig noFailOracle exampleWorldA ("2025-10-12".toList) seenA1 none).seenSaved =
      some {"A3".toList, "A2".toList, "A1".toList} := by
  have h := run_seen_union_new_matches demoConfig noFailOracle exampleWorldA
    ("2025-10-12".toList) seenA1 none (by decide)
  exact ⟨h.1, h.2 (by decide), by decide, by rfl⟩

theorem run_no_new (cfg : Config) (o : SinkOracle) (w : World) (today : List Char)
    (seen0 : Finset (List Char)) (ledger0 : Option (List Row))
    (hkey : cfg.apiKey ≠ PLACEHOLDER_KEY)
    (hempty : (companyLoop w seen0 w.companies).1 = []) :
    (run cfg o w today seen0 ledger0).completed = true ∧
    (run cfg o w today seen0 ledger0).csvSink = none ∧
    (run cfg o w today seen0 ledger0).emailSink = none ∧
    (run cfg o w today seen0 ledger0).slackSink = none ∧
    (run cfg o w today seen0 ledger0).ledger = ledger0 := by
  have h0 : (companyLoop w seen0 w.companies).1.isEmpty = true := by
    simp [hempty]
  simp only [run, if_neg hkey, if_pos h0]
  exact ⟨trivial, trivial, trivial, trivial, trivial⟩

/-- C8: with the API key left at its placeholder value, `run()` aborts
immediately after logging the error: the company list is not loaded, the
seen set is neither read nor written, no corp code is fetched, no sink is
entered, the ledger is untouched, and the run does not complete. -/
theorem run_aborts_on_placeholder_key (cfg : Config) (o : SinkOracle) (w : World)
    (today : List Char) (seen0 : Finset (List Char)) (ledger0 : Option (List Row))
    (hkey : cfg.apiKey = PLACEHOLDER_KEY) :
    (run cfg o w today seen0 ledger0).abortedOnKey = true ∧
    (run cfg o w today seen0 ledger0).companiesLoaded = false ∧
    (run cfg o w today seen0 ledger0).seenLoaded = false ∧
    (run cfg o w today seen0 ledger0).fetchedCodes = [] ∧
    (run cfg o w today seen0 ledger0).newFilings = [] ∧
    (run cfg o w today seen0 ledger0).seenSaved = none ∧
    (run cfg o w today seen0 ledger0).csvSink = none ∧
    (run cfg o w today seen0 ledger0).emailSink = none ∧
    (run cfg o w today seen0 ledger0).slackSink = none ∧
    (run cfg o w today seen0 ledger0).ledger = ledger0 ∧
    (run cfg o w today seen0 ledger0).completed = false := by
  simp [run, hkey]

/-- Witness for C8: a concrete run with the placeholder key performs no
partial work. -/
theorem run_aborts_on_placeholder_key_witness :
    (run placeholderConfig noFailOracle exampleWorldA ("2025-10-12".toList) ∅ none).companiesLoaded = false ∧
    (run placeholderConfig noFailOracle exampleWorldA ("2025-10-12".toList) ∅ none).seenLoaded = false ∧
    (run placeholderConfig noFailOracle exampleWorldA ("2025-10-12".toList) ∅ none).fetchedCodes = [] ∧
    (run placeholderConfig noFailOracle exampleWorldA ("2025-10-12".toList) ∅ none).seenSaved = none ∧
    (run placeholderConfig noFailOracle exampleWorldA ("2025-10-12".toList) ∅ none).csvSink = none ∧
    (run placeholderConfig noFailOracle exampleWorldA ("2025-10-12".toList) ∅ none).emailSink = none ∧
    (run placeholderConfig noFailOracle exampleWorldA ("2025-10-12".toList) ∅ none).slackSink = none ∧
    (run placeholderConfig noFailOracle exampleWorldA ("2025-10-12".toList) ∅ none).completed = false := by
  obtain ⟨h1, h2, h3, h4, h5, h6, h7, h8, h9, h10, h11⟩ :=
    run_aborts_on_placeholder_key placeholderConfig noFailOracle exampleWorldA
      ("2025-10-12".toList) ∅ none (by rfl)
  exact ⟨h2, h3, h4, h6, h7, h8, h9, h11⟩

/-- C2 counterexample: with all three sinks configured and one new match,
a failure raised inside the CSV sink — whose body has no `try/except` —
prevents the email and chat sinks from being invoked at all and leaves
the run uncompleted. -/
theorem sink_isolation_counterexample :
    (run demoConfig csvFailOracle (oneCompanyWorld [matchFiling])
        ("2025-10-12".toList) ∅ none).newFilings = [matchFiling] ∧
    (run demoConfig csvFailOracle (oneCompanyWorld [matchFiling])
        ("2025-10-12".toList) ∅ none).csvSink = some ([matchFiling], false) ∧
    (run demoConfig csvFailOracle (oneCompanyWorld [matchFiling])
        ("2025-10-12".toList) ∅ none).emailSink = none ∧
    (run demoConfig csvFailOracle (oneCompanyWorld [matchFiling])
        ("2025-10-12".toList) ∅ none).slackSink = none ∧
    (run demoConfig csvFailOracle (oneCompanyWorld [matchFiling])
        ("2025-10-12".toList) ∅ none).completed = false := by
  refine ⟨?_, ?_, ?_, ?_, ?_⟩ <;> decide

/-- C2 (amended): only the delivery steps of the email and chat sinks —
the SMTP session and the webhook POST — are wrapped in `try/except`, so a
delivery failure in either never prevents the remaining sink invocations
and never aborts the run (when every new filing carries the fields the
message templates display); the CSV sink catches nothing, so a failure
inside it prevents the email and chat sinks and aborts the run; and each
sink's message building runs outside its `try`, so a new filing missing a
displayed field crashes `send_email` uncaught, skipping the chat sink and
aborting the run. -/
theorem sink_isolation (cfg : Config) (o : SinkOracle) (w : World) (today : List Char)
    (seen0 : Finset (List Char)) (ledger0 : Option (List Row))
    (hkey : cfg.apiKey ≠ PLACEHOLDER_KEY)
    (hnew : (run cfg o w today seen0 ledger0).newFilings ≠ []) :
    (o.csvRaises = true →
      (run cfg o w today seen0 ledger0).emailSink = none ∧
      (run cfg o w today seen0 ledger0).slackSink = none ∧
      (run cfg o w today seen0 ledger0).completed = false) ∧
    (o.csvRaises = false →
      (run cfg o w today seen0 ledger0).newFilings.all hasDisplayFields = true →
      (run cfg o w today seen0 ledger0).csvSink =
        some ((run cfg o w today seen0 ledger0).newFilings, true) ∧
      (run cfg o w today seen0 ledger0).emailSink =
        some ((run cfg o w today seen0 ledger0).newFilings,
          .ok { networkCall := emailConfigured cfg,
                sent := emailConfigured cfg && !o.emailRaises }) ∧
      (run cfg o w today seen0 ledger0).slackSink =
        some ((run cfg o w today seen0 ledger0).newFilings,
          .ok { webhookPost := slackConfigured cfg,
                posted := slackConfigured cfg && !o.slackRaises }) ∧
      (run cfg o w today seen0 ledger0).completed = true) ∧
    (o.csvRaises = false →
      send_email cfg o (run cfg o w today seen0 ledger0).newFilings = .error () →
      (run cfg o w today seen0 ledger0).slackSink = none ∧
      (run cfg o w today seen0 ledger0).completed = false) := by
  obtain ⟨hn, _, _⟩ := run_core cfg o w today seen0 ledger0 hkey
  have hnew' : (companyLoop w seen0 w.companies).1 ≠ [] := by rwa [hn] at hnew
  refine ⟨?_, ?_, ?_⟩
  · intro hcsv
    obtain ⟨_, b, c, _, e⟩ :=
      run_sinks_csv_fail cfg o w today seen0 ledger0 hkey hnew' hcsv
    exact ⟨b, c, e⟩
  · intro hcsv hdisp
    rw [hn] at hdisp
    obtain ⟨a, _, c, d, e⟩ := run_sinks_ok cfg o w today seen0 ledger0 _ _ hkey hnew'
      hcsv (send_email_of_display cfg o _ hdisp) (send_slack_of_display cfg o _ hdisp)
    rw [hn]
    exact ⟨a, c, d, e⟩
  · intro hcsv he
    rw [hn] at he
    obtain ⟨_, _, c, d⟩ :=
      run_email_crash cfg o w today seen0 ledger0 hkey hnew' hcsv he
    exact ⟨c, d⟩

/-- Witness for C2: with the SMTP session and the webhook POST both
raising but every new filing carrying its display fields, all three
sinks are still invoked and the run completes. -/
theorem sink_isolation_witness :
    (run demoConfig emailSlackFailOracle (oneCompanyWorld [matchFiling])
        ("2025-10-12".toList) ∅ none).emailSink =
      some ((run demoConfig emailSlackFailOracle (oneCompanyWorld [matchFiling])
        ("2025-10-12".toList) ∅ none).newFilings,
        .ok { networkCall := emailConfigured demoConfig,
              sent := emailConfigured demoConfig && !emailSlackFailOracle.emailRaises }) ∧
    (run demoConfig emailSlackFailOracle (oneCompanyWorld [matchFiling])
        ("2025-10-12".toList) ∅ none).slackSink =
      some ((run demoConfig emailSlackFailOracle (oneCompanyWorld [matchFiling])
        ("2025-10-12".toList) ∅ none).newFilings,
        .ok { webhookPost := slackConfigured demoConfig,
              posted := slackConfigured demoConfig && !emailSlackFailOracle.slackRaises }) ∧
    (run demoConfig emailSlackFailOracle (oneCompanyWorld [matchFiling])
        ("2025-10-12".toList) ∅ none).completed = true ∧
    (run demoConfig emailSlackFailOracle (oneCompanyWorld [matchFiling])
        ("2025-10-12".toList) ∅ none).newFilings = [matchFiling] := by
  have h := sink_isolation demoConfig emailSlackFailOracle (oneCompanyWorld [matchFiling])
    ("2025-10-12".toList) ∅ none (by decide) (by decide)
  obtain ⟨_, b, c, d⟩ := h.2.1 rfl (by decide)
  exact ⟨b, c, d, by decide⟩

/-- C9 counterexample: with an empty email password but the chat webhook
configured, a run whose one new match lacks `corp_name` sees `send_email`
return as a no-op, yet the run does not complete normally: `send_slack`
raises an uncaught `KeyError` while building its blocks, outside its
`try`. -/
theorem email_noop_counterexample :
    send_email emailIncompleteConfig noFailOracle [noCorpNameFiling] =
      .ok { networkCall := false, sent := false } ∧
    (run emailIncompleteConfig noFailOracle (oneCompanyWorld [noCorpNameFiling])
        ("2025-10-12".toList) ∅ none).newFilings = [noCorpNameFiling] ∧
    (run emailIncompleteConfig noFailOracle (oneCompanyWorld [noCorpNameFiling])
        ("2025-10-12".toList) ∅ none).slackSink =
      some ([noCorpNameFiling], .error ()) ∧
    (run emailIncompleteConfig noFailOracle (oneCompanyWorld [noCorpNameFiling])
        ("2025-10-12".toList) ∅ none).completed = false := by
  refine ⟨by decide, by decide, by decide, by decide⟩

/-- C9 (amended): when the email sender, password or recipient list is
empty, `send_email` performs no network call and returns as a no-op for
every filing list — its configuration check precedes the digest loop, so
it cannot raise; and in a run with a real key whose CSV write does not
raise and whose new matches all carry the fields the chat template
displays, the chat sink is still invoked with the new filings and the run
completes normally. -/
theorem email_incomplete_no_op (cfg : Config) (o : SinkOracle) (w : World)
    (today : List Char) (seen0 : Finset (List Char)) (ledger0 : Option (List Row))
    (fs : List Filing)
    (hinc : cfg.emailSender = [] ∨ cfg.emailPassword = [] ∨ cfg.emailTo = [])
    (hkey : cfg.apiKey ≠ PLACEHOLDER_KEY)
    (hcsv : o.csvRaises = false)
    (hdisp : (run cfg o w today seen0 ledger0).newFilings.all hasDisplayFields = true) :
    send_email cfg o fs = .ok { networkCall := false, sent := false } ∧
    (run cfg o w today seen0 ledger0).completed = true ∧
    ((run cfg o w today seen0 ledger0).newFilings ≠ [] →
      ∃ so, (run cfg o w today seen0 ledger0).slackSink =
        some ((run cfg o w today seen0 ledger0).newFilings, Except.ok so)) := by
  have hconf : emailConfigured cfg = false := by
    rcases hinc with h | h | h <;> simp [emailConfigured, h]
  obtain ⟨hn, _, _⟩ := run_core cfg o w today seen0 ledger0 hkey
  rw [hn] at hdisp
  by_cases hne : (companyLoop w seen0 w.companies).1 = []
  · obtain ⟨hc, _, _, _, _⟩ := run_no_new cfg o w today seen0 ledger0 hkey hne
    refine ⟨send_email_not_configured cfg o fs hconf, hc, ?_⟩
    intro hcontra
    exact absurd (hn.trans hne) hcontra
  · obtain ⟨_, _, _, d, e⟩ := run_sinks_ok cfg o w today seen0 ledger0 _ _ hkey hne
      hcsv (send_email_not_configured cfg o _ hconf) (send_slack_of_display cfg o _ hdisp)
    refine ⟨send_email_not_configured cfg o fs hconf, e, ?_⟩
    intro _
    rw [hn]
    exact ⟨_, d⟩

/-- Witness for C9: with an empty email password, a run with one
fully-populated new match makes no SMTP call, still posts to the chat
webhook, and completes. -/
theorem email_incomplete_no_op_witness :
    send_email emailIncompleteConfig noFailOracle [matchFiling] =
      .ok { networkCall := false, sent := false } ∧
    (run emailIncompleteConfig noFailOracle (oneCompanyWorld [matchFiling])
        ("2025-10-12".toList) ∅ none).completed = true ∧
    (∃ so, (run emailIncompleteConfig noFailOracle (oneCompanyWorld [matchFiling])
        ("2025-10-12".toList) ∅ none).slackSink =
      some ((run emailIncompleteConfig noFailOracle (oneCompanyWorld [matchFiling])
        ("2025-10-12".toList) ∅ none).newFilings, Except.ok so)) := by
  have h := email_incomplete_no_op emailIncompleteConfig noFailOracle
    (oneCompanyWorld [matchFiling]) ("2025-10-12".toList) ∅ none [matchFiling]
    (Or.inr (Or.inl rfl)) (by decide) rfl (by decide)
  exact ⟨h.1, h.2.1, h.2.2 (by decide)⟩

theorem mem_dedupByReceipt :
    ∀ (l : List Row) (kept : List (List Char)) (r : Row),
      r ∈ dedupByReceipt kept l → r ∈ l ∧ r.receipt_no ∉ kept := by
  intro l
  induction l with
  | nil => intro kept r h; simp [dedupByReceipt] at h
  | cons s rest ih =>
    intro kept r h
    by_cases hs : s.receipt_no ∈ kept
    · simp only [dedupByReceipt, if_pos hs] at h
      obtain ⟨h1, h2⟩ := ih kept r h
      exact ⟨List.mem_cons_of_mem _ h1, h2⟩
    · simp only [dedupByReceipt, if_neg hs] at h
      rcases List.mem_cons.mp h with rfl | h'
      · exact ⟨List.mem_cons_self _ _, hs⟩
      · obtain ⟨h1, h2⟩ := ih _ r h'
        exact ⟨List.mem_cons_of_mem _ h1, fun hc => h2 (List.mem_cons_of_mem _ hc)⟩

theorem rowKeys_dedupByReceipt_nodup :
    ∀ (l : List Row) (kept : List (List Char)),
      (rowKeys (dedupByReceipt kept l)).Nodup := by
  intro l
  induction l with
  | nil => intro kept; simp [dedupByReceipt, rowKeys]
  | cons s rest ih =>
    intro kept
    by_cases hs : s.receipt_no ∈ kept
    · simp only [dedupByReceipt, if_pos hs]
      exact ih kept
    · simp only [dedupByReceipt, if_neg hs, rowKeys, List.map_cons, List.nodup_cons]
      refine ⟨?_, ih _⟩
      intro hmem
      obtain ⟨r, hr, hkey⟩ := List.mem_map.mp hmem
      obtain ⟨_, h2⟩ := mem_dedupByReceipt rest _ r hr
      exact h2 (by rw [hkey]; exact List.mem_cons_self _ _)

theorem dedupByReceipt_eq_self :
    ∀ (l : List Row) (kept : List (List Char)),
      (rowKeys l).Nodup → (∀ r ∈ l, r.receipt_no ∉ kept) →
      dedupByReceipt kept l = l := by
  intro l
  induction l with
  | nil => intro kept _ _; rfl
  | cons s rest ih =>
    intro kept hnd hdis
    have hs : s.receipt_no ∉ kept := hdis s (List.mem_cons_self _ _)
    simp only [rowKeys, List.map_cons, List.nodup_cons] at hnd
    obtain ⟨hkey, hnd'⟩ := hnd
    simp only [dedupByReceipt, if_neg hs]
    congr 1
    apply ih
    · simpa [rowKeys] using hnd'
    · intro r hr hc
      rcases List.mem_cons.mp hc with heq | hker
      · exact hkey (heq ▸ List.mem_map_of_mem _ hr)
      · exact hdis r (List.mem_cons_of_mem _ hr) hker

theorem dedupByReceipt_length_le (l : List Row) (kept : List (List Char)) :
    (dedupByReceipt kept l).length ≤ (rowKeys l).toFinset.card := by
  have hsub : rowKeys (dedupByReceipt kept l) ⊆ rowKeys l := by
    intro k hk
    simp only [rowKeys, List.mem_map] at hk ⊢
    obtain ⟨r, hr, rfl⟩ := hk
    exact ⟨r, (mem_dedupByReceipt l kept r hr).1, rfl⟩
  have hnd := rowKeys_dedupByReceipt_nodup l kept
  calc (dedupByReceipt kept l).length
      = (rowKeys (dedupByReceipt kept l)).length := by simp [rowKeys]
    _ = (rowKeys (dedupByReceipt kept l)).toFinset.card :=
        (List.toFinset_card_of_nodup hnd).symm
    _ ≤ (rowKeys l).toFinset.card :=
        Finset.card_le_card fun k hk =>
          List.mem_toFinset.mpr (hsub (List.mem_toFinset.mp hk))

theorem rowKeys_toRow (today : List Char) (new_filings : List Filing) :
    rowKeys (new_filings.map (toRow today)) = new_filings.map rcept := by
  simp only [rowKeys, List.map_map]
  rfl

/-- C3 counterexample: when the ledger file does not yet exist,
`save_to_csv` writes the new rows without deduplicating them, so a list
of newly matched filings carrying the same receipt identifier twice
yields a ledger with two rows for one distinct identifier. -/
theorem csv_dedup_counterexample :
    ¬ (rowKeys (save_to_csv ("2025-10-12".toList) none [matchFiling, matchFiling])).Nodup ∧
    (save_to_csv ("2025-10-12".toList) none [matchFiling, matchFiling]).length = 2 ∧
    (rowKeys (save_to_csv ("2025-10-12".toList) none
        [matchFiling, matchFiling])).toFinset.card = 1 := by
  refine ⟨by decide, by decide, by decide⟩

/-- C3 (amended): provided the newly matched filings carry
pairwise-distinct receipt identifiers (which `run()` guarantees within a
run), the rewritten ledger never contains two rows with the same receipt
identifier whether or not the file already existed; writing N new filings
into an absent ledger and then re-running with 0 new filings leaves
exactly N rows; and writing into an existing ledger never pushes the row
count beyond the number of distinct receipt identifiers present. -/
theorem csv_ledger_dedup (today today' : List Char) (ex : List Row)
    (new_filings : List Filing) (hnew : (new_filings.map rcept).Nodup) :
    (rowKeys (save_to_csv today (some ex) new_filings)).Nodup ∧
    (rowKeys (save_to_csv today none new_filings)).Nodup ∧
    (save_to_csv today' (some (save_to_csv today none new_filings)) []).length =
      new_filings.length ∧
    (save_to_csv today (some ex) new_filings).length ≤
      (rowKeys ex ++ new_filings.map rcept).toFinset.card := by
  refine ⟨?_, ?_, ?_, ?_⟩
  · simp only [save_to_csv, dropDuplicatesByReceipt]
    exact rowKeys_dedupByReceipt_nodup _ _
  · simp only [save_to_csv]
    rw [rowKeys_toRow]
    exact hnew
  · simp only [save_to_csv, dropDuplicatesByReceipt, List.map_nil, List.append_nil]
    rw [dedupByReceipt_eq_self _ _ (by rw [rowKeys_toRow]; exact hnew) (by simp)]
    exact List.length_map _ _
  · simp only [save_to_csv, dropDuplicatesByReceipt]
    have h := dedupByReceipt_length_le (ex ++ new_filings.map (toRow today)) []
    rwa [show rowKeys (ex ++ new_filings.map (toRow today)) =
        rowKeys ex ++ new_filings.map rcept by
      simp only [rowKeys, List.map_append]
      rw [show (new_filings.map (toRow today)).map Row.receipt_no =
        rowKeys (new_filings.map (toRow today)) from rfl, rowKeys_toRow]] at h

/-- Witness for C3: two distinct-identifier filings written into a ledger
that already holds one row. -/
theorem csv_ledger_dedup_witness :
    (rowKeys (save_to_csv ("2025-10-12".toList)
        (some [toRow ("2025-10-11".toList) plainFilingA1])
        [matchFiling, plainFilingA2])).Nodup ∧
    (rowKeys (save_to_csv ("2025-10-12".toList) none
        [matchFiling, plainFilingA2])).Nodup ∧
    (save_to_csv ("2025-10-13".toList)
        (some (save_to_csv ("2025-10-12".toList) none [matchFiling, plainFilingA2]))
        []).length = ([matchFiling, plainFilingA2] : List Filing).length ∧
    (save_to_csv ("2025-10-12".toList)
        (some [toRow ("2025-10-11".toList) plainFilingA1])
        [matchFiling, plainFilingA2]).length ≤
      (rowKeys [toRow ("2025-10-11".toList) plainFilingA1] ++
        ([matchFiling, plainFilingA2] : List Filing).map rcept).toFinset.card := by
  exact csv_ledger_dedup ("2025-10-12".toList) ("2025-10-13".toList)
    [toRow ("2025-10-11".toList) plainFilingA1] [matchFiling, plainFilingA2] (by decide)

/-- C7: a category response with the provider's "no results" status 013
is a normal empty result — handled by the `pass` branch, not the warning
or exception branches; any category whose query does not succeed with
status 000 (bad status, or a transport exception caught by the `except`)
contributes no filings; and when category A's query does not succeed, the
merged result is exactly category B's contribution, so the other
category's query and the rest of the run proceed unaffected. -/
theorem search_filings_degrades (respond : PblntfTy → Except Unit DartListData)
    (hA : ∀ d, respond .A = .ok d → d.status ≠ STATUS_OK) :
    (∀ ty d, respond ty = .ok d → d.status = STATUS_NO_RESULTS →
      fetchCategory respond ty = .noResults) ∧
    catFilings (fetchCategory respond .A) = [] ∧
    search_filings respond = catFilings (fetchCategory respond .B) := by
  have hempty : catFilings (fetchCategory respond .A) = [] := by
    cases h : respond .A with
    | error e => simp [fetchCategory, h, catFilings]
    | ok d =>
      simp only [fetchCategory, h, if_neg (hA d h)]
      split
      · rfl
      · rfl
  refine ⟨?_, hempty, ?_⟩
  · intro ty d hok hst
    have hne : d.status ≠ STATUS_OK := by
      rw [hst]
      decide
    simp only [fetchCategory, hok, if_neg hne, if_pos hst]
  · rw [search_filings, hempty, List.nil_append]

/-- Witness for C7: a "no results" response for category A is a normal
empty result and category B's single filing is returned untouched. -/
theorem search_filings_degrades_witness :
    fetchCategory respond013 .A = .noResults ∧
    catFilings (fetchCategory respond013 .A) = [] ∧
    search_filings respond013 = [matchFiling] ∧
    search_filings respond013 = catFilings (fetchCategory respond013 .B) := by
  have h := search_filings_degrades respond013 (by
    intro d hd
    injection hd with h'
    rw [← h']
    decide)
  refine ⟨h.1 .A _ rfl rfl, h.2.1, by decide, h.2.2⟩

theorem processFilings_countP_none :
    ∀ (fs : List Filing) (seen : Finset (List Char)),
      ((processFilings seen fs).1.countP fun f => f.rcept_no.isNone) ≤
        (if ([] : List Char) ∈ seen then 0 else 1) := by
  intro fs
  induction fs with
  | nil => intro seen; simp [processFilings]
  | cons f rest ih =>
    intro seen
    by_cases h : rcept f ∈ seen
    · simp only [processFilings, if_pos h]
      exact ih seen
    · have hmono : ((processFilings (insert (rcept f) seen) rest).1.countP
          fun g => g.rcept_no.isNone) ≤ (if ([] : List Char) ∈ seen then 0 else 1) := by
        have hi := ih (insert (rcept f) seen)
        by_cases h0 : ([] : List Char) ∈ seen
        · rw [if_pos (Finset.mem_insert_of_mem h0)] at hi
          rw [if_pos h0]
          exact hi
        · rw [if_neg h0]
          split at hi
          · omega
          · omega
      by_cases hm : is_value_up_filing f
      · have hstep : (processFilings seen (f :: rest)).1 =
            f :: (processFilings (insert (rcept f) seen) rest).1 := by
          simp [processFilings, h, hm]
        rw [hstep, List.countP_cons]
        cases hr : f.rcept_no with
        | none =>
          have hkey0 : rcept f = [] := by simp [rcept, hr]
          have h0 : ([] : List Char) ∉ seen := by rw [← hkey0]; exact h
          have hin : ([] : List Char) ∈ insert (rcept f) seen := by
            rw [hkey0]
            exact Finset.mem_insert_self _ _
          have hi := ih (insert (rcept f) seen)
          rw [if_pos hin] at hi
          rw [if_neg h0]
          have h00 : (List.countP (fun g => g.rcept_no.isNone)
              (processFilings (insert (rcept f) seen) rest).1) = 0 :=
            Nat.le_zero.mp hi
          simp [hr, h00]
        | some v =>
          simpa [hr] using hmono
      · have hstep : (processFilings seen (f :: rest)).1 =
            (processFilings (insert (rcept f) seen) rest).1 := by
          simp [processFilings, h, hm]
        rw [hstep]
        exact hmono

/-- C10: a filing without a receipt identifier is keyed by the empty
string in the seen set: among a run's new matches at most one filing
lacks a receipt identifier — and none when the empty string is already in
the loaded seen set — because the first such filing processed puts the
empty string into the set, which is then persisted, so every subsequent
identifier-less filing in this run or any later one is treated as already
seen and skipped even when its title matches. -/
theorem missing_receipt_keyed_by_empty (cfg : Config) (o : SinkOracle) (w : World)
    (today : List Char) (seen0 : Finset (List Char)) (ledger0 : Option (List Row))
    (hkey : cfg.apiKey ≠ PLACEHOLDER_KEY) :
    ((run cfg o w today seen0 ledger0).newFilings.countP
        fun f => f.rcept_no.isNone) ≤
      (if ([] : List Char) ∈ seen0 then 0 else 1) ∧
    ((∃ f ∈ gatherFilings w, f.rcept_no = none) →
      ∀ s, (run cfg o w today seen0 ledger0).seenSaved = some s →
        ([] : List Char) ∈ s) := by
  obtain ⟨hn, hs, _⟩ := run_core cfg o w today seen0 ledger0 hkey
  constructor
  · rw [hn, companyLoop_eq]
    exact processFilings_countP_none _ seen0
  · rintro ⟨f, hf, hnone⟩ s hsome
    rw [hs] at hsome
    injection hsome with hsome
    rw [← hsome, companyLoop_eq]
    rw [show (w.companies.filterMap w.corp_code).flatMap w.filings = gatherFilings w
      from rfl]
    rw [processFilings_seen]
    refine Finset.mem_union_right _ (List.mem_toFinset.mpr ?_)
    have : rcept f = [] := by simp [rcept, hnone]
    rw [← this]
    exact List.mem_map_of_mem _ hf

/-- Witness for C10: two identifier-less filings with matching titles in
one run — only the first is reported, and the empty string lands in the
persisted seen set. -/
theorem missing_receipt_keyed_by_empty_witness :
    ((run demoConfig noFailOracle (oneCompanyWorld [noReceiptFiling1, noReceiptFiling2])
        ("2025-10-12".toList) ∅ none).newFilings.countP
        fun f => f.rcept_no.isNone) ≤
      (if ([] : List Char) ∈ (∅ : Finset (List Char)) then 0 else 1) ∧
    ([] : List Char) ∈
      (run demoConfig noFailOracle (oneCompanyWorld [noReceiptFiling1, noReceiptFiling2])
        ("2025-10-12".toList) ∅ none).seenSaved.getD ∅ ∧
    (run demoConfig noFailOracle (oneCompanyWorld [noReceiptFiling1, noReceiptFiling2])
        ("2025-10-12".toList) ∅ none).newFilings = [noReceiptFiling1] := by
  have h := missing_receipt_keyed_by_empty demoConfig noFailOracle
    (oneCompanyWorld [noReceiptFiling1, noReceiptFiling2]) ("2025-10-12".toList)
    ∅ none (by decide)
  exact ⟨h.1, h.2 ⟨noReceiptFiling1, by decide, rfl⟩ _ rfl, by decide⟩

theorem run_new_not_seen (cfg : Config) (o : SinkOracle) (w : World) (today : List Char)
    (seen0 : Finset (List Char)) (ledger0 : Option (List Row))
    (hkey : cfg.apiKey ≠ PLACEHOLDER_KEY) (f : Filing)
    (hf : f ∈ (run cfg o w today seen0 ledger0).newFilings) : rcept f ∉ seen0 := by
  obtain ⟨hn, _, _⟩ := run_core cfg o w today seen0 ledger0 hkey
  rw [hn, companyLoop_eq] at hf
  exact (processFilings_new_mem _ _ _ hf).2

theorem run_seen_monotone (cfg : Config) (o : SinkOracle) (w : World) (today : List Char)
    (seen0 : Finset (List Char)) (ledger0 : Option (List Row)) :
    seen0 ⊆ (run cfg o w today seen0 ledger0).seenSaved.getD seen0 := by
  by_cases hkey : cfg.apiKey = PLACEHOLDER_KEY
  · simp [run, hkey]
  · obtain ⟨_, hs, _⟩ := run_core cfg o w today seen0 ledger0 hkey
    rw [hs, Option.getD_some, companyLoop_eq, processFilings_seen]
    exact Finset.subset_union_left

theorem run_new_in_saved (cfg : Config) (o : SinkOracle) (w : World) (today : List Char)
    (seen0 : Finset (List Char)) (ledger0 : Option (List Row))
    (hkey : cfg.apiKey ≠ PLACEHOLDER_KEY) (f : Filing)
    (hf : f ∈ (run cfg o w today seen0 ledger0).newFilings) :
    rcept f ∈ (run cfg o w today seen0 ledger0).seenSaved.getD seen0 := by
  obtain ⟨hn, hs, _⟩ := run_core cfg o w today seen0 ledger0 hkey
  rw [hs, Option.getD_some, companyLoop_eq, processFilings_seen]
  rw [hn, companyLoop_eq] at hf
  have hmem := (processFilings_new_mem _ _ _ hf).1
  exact Finset.mem_union_right _ (List.mem_toFinset.mpr (List.mem_map_of_mem _ hmem))

theorem runSeq_not_seen (cfg : Config) (hkey : cfg.apiKey ≠ PLACEHOLDER_KEY) :
    ∀ (inputs : List (SinkOracle × World × List Char)) (seen : Finset (List Char))
      (ledger : Option (List Row)),
      ∀ r ∈ runSeq cfg seen ledger inputs, ∀ f ∈ r.newFilings, rcept f ∉ seen := by
  intro inputs
  induction inputs with
  | nil => intro seen ledger r hr; simp [runSeq] at hr
  | cons iwt rest ih =>
    obtain ⟨o, w, today⟩ := iwt
    intro seen ledger r hr
    rw [runSeq] at hr
    rcases List.mem_cons.mp hr with rfl | hr'
    · intro f hf
      exact run_new_not_seen cfg o w today seen ledger hkey f hf
    · intro f hf hc
      exact ih _ _ r hr' f hf (run_seen_monotone cfg o w today seen ledger hc)

theorem runSeq_pairwise (cfg : Config) (hkey : cfg.apiKey ≠ PLACEHOLDER_KEY) :
    ∀ (inputs : List (SinkOracle × World × List Char)) (seen : Finset (List Char))
      (ledger : Option (List Row)),
      List.Pairwise
        (fun r1 r2 => ∀ f ∈ r1.newFilings, ∀ g ∈ r2.newFilings, rcept f ≠ rcept g)
        (runSeq cfg seen ledger inputs) := by
  intro inputs
  induction inputs with
  | nil => intro seen ledger; simp [runSeq]
  | cons iwt rest ih =>
    obtain ⟨o, w, today⟩ := iwt
    intro seen ledger
    rw [runSeq]
    refine List.Pairwise.cons ?_ (ih _ _)
    intro r' hr' f hf g hg hc
    have hfin : rcept f ∈ (run cfg o w today seen ledger).seenSaved.getD seen :=
      run_new_in_saved cfg o w today seen ledger hkey f hf
    exact runSeq_not_seen cfg hkey rest _ _ r' hr' g hg (hc ▸ hfin)

/-- C5 counterexample: the matching filing A3 enters the persisted seen
set in the first of two runs, but because the CSV write raises in that
run, the configured email and chat sinks are never invoked with it — not
in that run, and not in the later run either, since the persisted
identifier makes the second run report nothing. -/
theorem delivery_at_least_once_counterexample :
    slackConfigured demoConfig = true ∧
    emailConfigured demoConfig = true ∧
    ((runSeq demoConfig ∅ none twoRunInputs).map fun r => r.seenSaved) =
      [some {"A3".toList}, some {"A3".toList}] ∧
    ((runSeq demoConfig ∅ none twoRunInputs).map fun r => r.slackSink) = [none, none] ∧
    ((runSeq demoConfig ∅ none twoRunInputs).map fun r => r.emailSink) = [none, none] := by
  refine ⟨rfl, rfl, rfl, rfl, rfl⟩

/-- C5 (amended): notification delivery is best-effort and at-most-once,
deduplicated by the persisted identifier set: in a run with a real key
whose CSV write does not raise and whose new matches all carry the fields
the message templates display, every newly matched filing is passed to
the email and chat sinks in that same run (a crash building either
message would skip what follows); a filing whose receipt identifier is
already in the loaded seen set is never reported as new; and across any
sequence of runs, no receipt identifier appears among the new matches of
two different runs — a notification lost to a sink failure is not retried
later. -/
theorem delivery_at_most_once (cfg : Config) (hkey : cfg.apiKey ≠ PLACEHOLDER_KEY) :
    (∀ (o : SinkOracle) (w : World) (today : List Char) (seen0 : Finset (List Char))
        (ledger0 : Option (List Row)), o.csvRaises = false →
      (run cfg o w today seen0 ledger0).newFilings.all hasDisplayFields = true →
      (run cfg o w today seen0 ledger0).newFilings ≠ [] →
      (∃ eo, (run cfg o w today seen0 ledger0).emailSink =
        some ((run cfg o w today seen0 ledger0).newFilings, Except.ok eo)) ∧
      (∃ so, (run cfg o w today seen0 ledger0).slackSink =
        some ((run cfg o w today seen0 ledger0).newFilings, Except.ok so))) ∧
    (∀ (o : SinkOracle) (w : World) (today : List Char) (seen0 : Finset (List Char))
        (ledger0 : Option (List Row)),
      ∀ f ∈ (run cfg o w today seen0 ledger0).newFilings, rcept f ∉ seen0) ∧
    (∀ (inputs : List (SinkOracle × World × List Char)) (seen : Finset (List Char))
        (ledger : Option (List Row)),
      List.Pairwise
        (fun r1 r2 => ∀ f ∈ r1.newFilings, ∀ g ∈ r2.newFilings, rcept f ≠ rcept g)
        (runSeq cfg seen ledger inputs)) := by
  refine ⟨?_, ?_, ?_⟩
  · intro o w today seen0 ledger0 hcsv hdisp hne
    obtain ⟨hn, _, _⟩ := run_core cfg o w today seen0 ledger0 hkey
    have hne' : (companyLoop w seen0 w.companies).1 ≠ [] := by rwa [hn] at hne
    rw [hn] at hdisp
    obtain ⟨_, _, c, d, _⟩ := run_sinks_ok cfg o w today seen0 ledger0 _ _ hkey hne'
      hcsv (send_email_of_display cfg o _ hdisp) (send_slack_of_display cfg o _ hdisp)
    rw [hn]
    exact ⟨⟨_, c⟩, ⟨_, d⟩⟩
  · intro o w today seen0 ledger0 f hf
    exact run_new_not_seen cfg o w today seen0 ledger0 hkey f hf
  · intro inputs seen ledger
    exact runSeq_pairwise cfg hkey inputs seen ledger

/-- Witness for C5: a clean run delivers its one new match to both
configured sinks, and the two-run sequence never reports the same
identifier twice. -/
theorem delivery_at_most_once_witness :
    (∃ eo, (run demoConfig noFailOracle (oneCompanyWorld [matchFiling])
        ("2025-10-12".toList) ∅ none).emailSink =
      some ((run demoConfig noFailOracle (oneCompanyWorld [matchFiling])
        ("2025-10-12".toList) ∅ none).newFilings, Except.ok eo)) ∧
    (∃ so, (run demoConfig noFailOracle (oneCompanyWorld [matchFiling])
        ("2025-10-12".toList) ∅ none).slackSink =
      some ((run demoConfig noFailOracle (oneCompanyWorld [matchFiling])
        ("2025-10-12".toList) ∅ none).newFilings, Except.ok so)) ∧
    List.Pairwise
      (fun r1 r2 => ∀ f ∈ r1.newFilings, ∀ g ∈ r2.newFilings, rcept f ≠ rcept g)
      (runSeq demoConfig ∅ none twoRunInputs) := by
  have h := delivery_at_most_once demoConfig (by decide)
  obtain ⟨hb, hc⟩ := h.1 noFailOracle (oneCompanyWorld [matchFiling])
    ("2025-10-12".toList) ∅ none rfl (by decide) (by decide)
  exact ⟨hb, hc, h.2.2 twoRunInputs ∅ none⟩

end ValueUp
